import Mathlib

/-! Shallow embedding of the connection core of Clojure-Sublimed: `cs_conn.py`
(the base `Connection` class) and `cs_conn_socket_repl.py`
(`ConnectionSocketRepl`, the line framer `lines`, the wire escaping
`escape`, and the tag-dispatch message handlers).

Python strings are modelled as Lean `String` (or `List Char` where
character-level recursion is needed), byte strings as `List Nat`,
wall-clock time as a millisecond counter, and side effects (registry
inserts, socket writes, UI callbacks) as explicit `Eff` events
accumulated in traces.
-/

namespace CS

/-- One observable side effect of the connection core. Registry operations
(`cs_eval.Eval(...)` insertion), socket writes, status updates, and the
`cs_eval`/`cs_watch`/`cs_warn` callbacks are modelled as trace events. -/
inductive Eff where
  | register (id : String)
  | send (payload : String)
  | setStatus (s : String)
  | clearStatus
  | closeSocket
  | eraseWatches
  | eraseEvals
  | resetWarnings
  | reportError
  | statusMessage
  | sleep (ms : Nat)
  | attempt (n : Nat) (t : Nat)
  | disconnectCall
  | onSuccess (id : String) (val : Option String) (time : Option String)
  | onException (id : Option String) (val source line column trace : Option String)
  | onDone (id : Option String)
  | onWatch (id : Option String) (val : Option String)
  | onLookup (id : Option String) (val : Option String)
  | addWarning
  deriving DecidableEq

/-- Whether an effect is one of the `cs_eval`/`cs_watch`/`cs_warn` pending-work
callbacks (`on_success`, `on_exception`, `on_done`, `on_watch`, `on_lookup`,
`add_warning`). -/
def Eff.isCallback : Eff → Bool
  | .onSuccess .. => true
  | .onException .. => true
  | .onDone .. => true
  | .onWatch .. => true
  | .onLookup .. => true
  | .addWarning => true
  | _ => false

/-- Whether an effect is a registry insertion (`cs_eval.Eval(...)` creation). -/
def Eff.isRegister : Eff → Bool
  | .register _ => true
  | _ => false

/-- A decoded inbound message (the result of `cs_parser.parse_as_dict`): a
dict with a `tag` and optional further fields. Field values are modelled
post-formatting as strings; a missing key (`msg.get(k)` returning `None`)
is `none`. -/
structure Msg where
  tag : String
  id : Option String := none
  idx : Option String := none
  val : Option String := none
  time : Option String := none
  watch_id : Option String := none
  source : Option String := none
  line : Option String := none
  column : Option String := none
  trace : Option String := none
  deriving DecidableEq

/-- Python f-string interpolation of a possibly-`None` value: interpolating
`None` yields the literal text `"None"`. -/
def pyFmt : Option String → String
  | some s => s
  | none => "None"

/-- `ConnectionSocketRepl.handle_value`: on tag `ret`, calls
`cs_eval.on_success(f'{id}.{idx}', val, time = time)` and returns `True`
(modelled as `some` of the emitted effects); otherwise returns `None`. -/
def handle_value (msg : Msg) : Option (List Eff) :=
  if msg.tag = "ret" then
    some [.onSuccess (pyFmt msg.id ++ "." ++ pyFmt msg.idx) msg.val msg.time]
  else none

/-- `ConnectionSocketRepl.handle_watch`: on tag `watch`, calls
`cs_watch.on_watch(watch_id, val)`. -/
def handle_watch (msg : Msg) : Option (List Eff) :=
  if msg.tag = "watch" then
    some [.onWatch msg.watch_id msg.val]
  else none

/-- `ConnectionSocketRepl.handle_exception`: on tag `ex`, resolves
`eval_id = f'{id}.{idx}' if idx is not None else id` and calls
`cs_eval.on_exception(eval_id, val, source, line, column, trace)`. -/
def handle_exception (msg : Msg) : Option (List Eff) :=
  if msg.tag = "ex" then
    some [.onException
      (if msg.idx.isSome then some (pyFmt msg.id ++ "." ++ pyFmt msg.idx) else msg.id)
      msg.val msg.source msg.line msg.column msg.trace]
  else none

/-- `ConnectionSocketRepl.handle_done`: on tag `done`, calls
`cs_eval.on_done(batch_id)`. -/
def handle_done (msg : Msg) : Option (List Eff) :=
  if msg.tag = "done" then
    some [.onDone msg.id]
  else none

/-- `ConnectionSocketRepl.handle_lookup`: on tag `lookup`, reads the
mandatory key `msg['val']` — a plain subscript that raises `KeyError`
(modelled as `Except.error`) when `val` is absent — parses it with
`cs_parser.parse_as_dict` (kept abstract: the raw value is carried) and
calls `cs_eval.on_lookup(id, val)`. -/
def handle_lookup (msg : Msg) : Option (Except Unit (List Eff)) :=
  if msg.tag = "lookup" then
    some (match msg.val with
      | some v => .ok [.onLookup msg.id (some v)]
      | none => .error ())
  else none

/-- `ConnectionSocketRepl.handle_err`: on tag `err`, reads the mandatory key
`msg['val']` — a plain subscript that raises `KeyError` (modelled as
`Except.error`) when `val` is absent — and adds a warning when the value
starts with "Reflection warning"; returns `True` either way. -/
def handle_err (msg : Msg) : Option (Except Unit (List Eff)) :=
  if msg.tag = "err" then
    some (match msg.val with
      | some v => .ok (if v.startsWith ("Reflection warning") then [.addWarning] else [])
      | none => .error ())
  else none

/-- `ConnectionSocketRepl.handle_msg`: the first-truthy chain
`handle_value or handle_exception or handle_done or handle_watch or
handle_lookup or handle_err`. The result is the fired handler's effects, or
`Except.error` when the fired handler raises (an uncaught `KeyError`
propagates out of `handle_msg`). -/
def handle_msg (msg : Msg) : Except Unit (List Eff) :=
  match handle_value msg with
  | some es => .ok es
  | none =>
  match handle_exception msg with
  | some es => .ok es
  | none =>
  match handle_done msg with
  | some es => .ok es
  | none =>
  match handle_watch msg with
  | some es => .ok es
  | none =>
  match handle_lookup msg with
  | some r => r
  | none =>
  match handle_err msg with
  | some r => r
  | none => .ok []

/-- Python `str.replace(p, r)` for a single-character pattern `p`, on strings
modelled as `List Char`: every occurrence of `p` is replaced by `r`, and the
replacement text is not rescanned. -/
def replace1 (p : Char) (r : List Char) : List Char → List Char
  | [] => []
  | c :: cs => if c = p then r ++ replace1 p r cs else c :: replace1 p r cs

/-- `escape` from cs_conn_socket_repl.py:
`s.replace('\\', '\\\\').replace('"', '\\"')` — first double every
backslash, then prefix every double quote with a backslash. -/
def escape (s : List Char) : List Char :=
  replace1 '"' ['\\', '"'] (replace1 '\\' ['\\', '\\'] s)

/-- Modelled from the spec: the decoding side of the wire escaping lives in
`cs_parser` / the remote runtime, which is not under src. Per the spec the
escaping is minimal (backslash-doubling and quote-escaping only), so its
inverse maps each backslash-prefixed pair to the second character and every
other character to itself. -/
def unescape : List Char → List Char
  | [] => []
  | [c] => [c]
  | c :: c2 :: cs => if c = '\\' then c2 :: unescape cs else c :: unescape (c2 :: cs)

/-- One pass of the inner framing loop of `lines` (cs_conn_socket_repl.py):
`while b'\n' in buffer: (line, buffer) = buffer.split(b'\n', 1); yield line`.
Returns the complete lines split off at each newline byte 10 (in order) and
the remaining, newline-free buffer. Bytes are modelled as `List Nat`. -/
def splitBuf (buf : List Nat) : List (List Nat) × List Nat :=
  if h : 10 ∈ buf then
    have hlt : ((buf.dropWhile (· != 10)).tail).length < buf.length := by
      have hld : buf.dropWhile (· != 10) ≠ [] := by
        rw [Ne, List.dropWhile_eq_nil_iff]
        push_neg
        exact ⟨10, h, by simp⟩
      have h1 : 0 < (buf.dropWhile (· != 10)).length := List.length_pos.mpr hld
      have h2 : (buf.dropWhile (· != 10)).length ≤ buf.length :=
        (List.dropWhile_sublist _).length_le
      rw [List.length_tail]
      omega
    let r := splitBuf ((buf.dropWhile (· != 10)).tail)
    (buf.takeWhile (· != 10) :: r.1, r.2)
  else ([], buf)
termination_by buf.length
decreasing_by
  exact hlt

/-- End-of-stream flush of `lines`: `if buffer: yield buffer.decode()`. -/
def flushBuf (buf : List Nat) : List (List Nat) :=
  if buf = [] then [] else [buf]

/-- The `lines` generator of cs_conn_socket_repl.py, driven by the byte
chunks successively returned by `socket.recv(4096)`; an empty chunk — or
the end of the chunk list — is `recv` reporting that the peer closed the
stream, after which the inner split still runs once and any nonempty
remaining buffer is yielded as a final line. Text decoding of each yielded
line is modelled as the identity on its bytes. -/
def linesGen : List (List Nat) → List Nat → List (List Nat)
  | [], buffer => (splitBuf buffer).1 ++ flushBuf (splitBuf buffer).2
  | chunk :: rest, buffer =>
    if chunk = [] then (splitBuf buffer).1 ++ flushBuf (splitBuf buffer).2
    else (splitBuf (buffer ++ chunk)).1 ++ linesGen rest (splitBuf (buffer ++ chunk)).2

/-- `lines(socket)` starting from the initial empty buffer `b''`. -/
def lines (chunks : List (List Nat)) : List (List Nat) :=
  linesGen chunks []

/-- The lines produced when a byte sequence is processed in one go: split
off every complete line, then flush the remainder. -/
def oneShot (bs : List Nat) : List (List Nat) :=
  (splitBuf bs).1 ++ flushBuf (splitBuf bs).2

theorem splitBuf_not_mem {buf : List Nat} (h : 10 ∉ buf) : splitBuf buf = ([], buf) := by
  rw [splitBuf.eq_def]
  simp [h]

theorem splitBuf_mem {buf : List Nat} (h : 10 ∈ buf) :
    splitBuf buf =
      (buf.takeWhile (· != 10) :: (splitBuf ((buf.dropWhile (· != 10)).tail)).1,
       (splitBuf ((buf.dropWhile (· != 10)).tail)).2) := by
  rw [splitBuf.eq_def]
  simp [h]

theorem takeWhile_append_of_mem {a : List Nat} (b : List Nat) (h : 10 ∈ a) :
    (a ++ b).takeWhile (· != 10) = a.takeWhile (· != 10) := by
  induction a with
  | nil => cases h
  | cons c a ih =>
    by_cases hc : c = 10
    · subst hc; simp [List.takeWhile_cons]
    · have hm : 10 ∈ a := by
        rcases List.mem_cons.mp h with h1 | h1
        · exact absurd h1.symm hc
        · exact h1
      simp [List.takeWhile_cons, hc, ih hm]

theorem dropWhile_append_of_mem {a : List Nat} (b : List Nat) (h : 10 ∈ a) :
    (a ++ b).dropWhile (· != 10) = a.dropWhile (· != 10) ++ b := by
  induction a with
  | nil => cases h
  | cons c a ih =>
    by_cases hc : c = 10
    · subst hc; simp [List.dropWhile_cons]
    · have hm : 10 ∈ a := by
        rcases List.mem_cons.mp h with h1 | h1
        · exact absurd h1.symm hc
        · exact h1
      simp [List.dropWhile_cons, hc, ih hm]

theorem dropWhile_ne_nil_of_mem {a : List Nat} (h : 10 ∈ a) :
    a.dropWhile (· != 10) ≠ [] := by
  rw [Ne, List.dropWhile_eq_nil_iff]
  push_neg
  exact ⟨10, h, by simp⟩

/-- Processing `a ++ b` in one pass yields the complete lines of `a`, then
the lines obtained by continuing from `a`'s leftover buffer followed by
`b`. This is the compositional heart of chunk-boundary independence. -/
theorem splitBuf_append (a b : List Nat) :
    splitBuf (a ++ b) =
      ((splitBuf a).1 ++ (splitBuf ((splitBuf a).2 ++ b)).1,
       (splitBuf ((splitBuf a).2 ++ b)).2) := by
  suffices H : ∀ (n : Nat) (a b : List Nat), a.length ≤ n →
      splitBuf (a ++ b) =
        ((splitBuf a).1 ++ (splitBuf ((splitBuf a).2 ++ b)).1,
         (splitBuf ((splitBuf a).2 ++ b)).2) by
    exact H a.length a b le_rfl
  intro n
  induction n with
  | zero =>
    intro a b hlen
    have ha : a = [] := List.length_eq_zero.mp (Nat.le_zero.mp hlen)
    subst ha
    simp [splitBuf_not_mem (by simp : (10:Nat) ∉ ([] : List Nat))]
  | succ n ih =>
    intro a b hlen
    by_cases hm : 10 ∈ a
    · have hmab : 10 ∈ a ++ b := List.mem_append.mpr (Or.inl hm)
      rw [splitBuf_mem hmab, splitBuf_mem hm]
      rw [takeWhile_append_of_mem b hm, dropWhile_append_of_mem b hm]
      have hdnn : a.dropWhile (· != 10) ≠ [] := dropWhile_ne_nil_of_mem hm
      have htl : (a.dropWhile (· != 10) ++ b).tail = (a.dropWhile (· != 10)).tail ++ b := by
        cases hd : a.dropWhile (· != 10) with
        | nil => exact absurd hd hdnn
        | cons x xs => simp
      rw [htl]
      have hlt : ((a.dropWhile (· != 10)).tail).length ≤ n := by
        have h1 : 0 < (a.dropWhile (· != 10)).length := List.length_pos.mpr hdnn
        have h2 : (a.dropWhile (· != 10)).length ≤ a.length :=
          (List.dropWhile_sublist _).length_le
        have h3 : ((a.dropWhile (· != 10)).tail).length =
            (a.dropWhile (· != 10)).length - 1 := List.length_tail _
        omega
      rw [ih _ b hlt]
      simp
    · rw [splitBuf_not_mem hm]
      simp

/-- Feeding the chunks one at a time, starting from any buffer, yields
exactly the one-shot lines of the buffer followed by all the chunk bytes —
provided every chunk is nonempty (an empty chunk means end-of-stream). -/
theorem linesGen_eq_oneShot (chunks : List (List Nat)) (hne : ∀ c ∈ chunks, c ≠ [])
    (buffer : List Nat) : linesGen chunks buffer = oneShot (buffer ++ chunks.flatten) := by
  induction chunks generalizing buffer with
  | nil => simp [linesGen, oneShot]
  | cons c cs ih =>
    have hc : c ≠ [] := hne c (List.mem_cons_self c cs)
    have hcs : ∀ d ∈ cs, d ≠ [] := fun d hd => hne d (List.mem_cons_of_mem c hd)
    rw [linesGen]
    simp only [hc, if_false]
    rw [ih hcs]
    rw [List.flatten_cons, ← List.append_assoc]
    unfold oneShot
    rw [splitBuf_append (buffer ++ c) cs.flatten]
    simp

/-- One pending Eval in the global `cs_eval` registry, reduced to the fields
the claims need: the identifier and the owning window. -/
structure EvalEntry where
  id : String
  window : Nat
  deriving DecidableEq

/-- One watch subscription in the `cs_watch` registry; `window` models the
value of `w.view.window()`. -/
structure WatchEntry where
  id : Nat
  window : Nat
  deriving DecidableEq

/-- The mutable state touched by the connection core: the connection's own
flags (`disconnecting`, its `socket`), the ambient `cs_common` state
(`state.conn` and the window status-bar entry), and the
`cs_eval`/`cs_watch` registries. -/
structure World where
  disconnecting : Bool
  socket : Option Nat
  conn : Option Nat
  statusBar : Option String
  evals : List EvalEntry
  watches : List WatchEntry
  deriving DecidableEq

/-- The identity of one `ConnectionSocketRepl`: its owning window and its
address. -/
structure SelfConn where
  window : Nat
  addr : String
  deriving DecidableEq

/-- Modelled from the spec: `cs_eval.erase_evals(pred)` is not under src; per
the spec, eviction removes every Eval matching the predicate from the
registry and invokes no pending callback (silent eviction). -/
def erase_evals (p : EvalEntry → Bool) (evals : List EvalEntry) : List EvalEntry :=
  evals.filter (fun e => !(p e))

/-- Modelled from the spec: `cs_watch.erase_watches(pred)` is not under src;
it removes every watch subscription matching the predicate. -/
def erase_watches (p : WatchEntry → Bool) (ws : List WatchEntry) : List WatchEntry :=
  ws.filter (fun we => !(p we))

/-- `ConnectionSocketRepl.disconnect_impl`: erase the watches whose view
belongs to this window, then close the socket if one is open (and null the
handle so it cannot be closed again). -/
def disconnect_impl (self : SelfConn) (w : World) : World × List Eff :=
  let w1 : World :=
    { w with watches := erase_watches (fun we => we.window == self.window) w.watches }
  match w1.socket with
  | some _ => ({ w1 with socket := none }, [.eraseWatches, .closeSocket])
  | none => (w1, [.eraseWatches])

/-- `Connection.disconnect` (cs_conn.py): return immediately when already
disconnecting; otherwise set the flag, run the subclass `disconnect_impl`
hook (passed explicitly to model dynamic dispatch), clear the active
connection, clear the status entry, erase this window's evals, and reset
its warnings. -/
def disconnect_with (impl : SelfConn → World → World × List Eff)
    (self : SelfConn) (w : World) : World × List Eff :=
  if w.disconnecting then (w, [])
  else
    let p := impl self { w with disconnecting := true }
    let w3 : World :=
      { p.1 with
        conn := none
        statusBar := none
        evals := erase_evals (fun e => e.window == self.window) p.1.evals }
    (w3, p.2 ++ [.clearStatus, .eraseEvals, .resetWarnings])

/-- `disconnect` as invoked on a `ConnectionSocketRepl` instance. -/
def disconnect (self : SelfConn) (w : World) : World × List Eff :=
  disconnect_with disconnect_impl self w

/-- The retry loop of `Connection.try_connect_impl` run against an address
whose connection attempt always raises. Wall-clock time is modelled as a
millisecond counter with `t0 = 0` (so `clock` is the elapsed time),
`time.sleep(0.25)` advances it by exactly 250 ms, and each failing
`connect_impl()` call is instantaneous. Returns the trace of sleeps and
numbered attempts, and the clock value at loop exit. -/
def tryLoop (timeout clock att : Nat) : List Eff × Nat :=
  if h : clock ≤ timeout then
    let r := tryLoop timeout (clock + 250) (att + 1)
    (.sleep 250 :: .attempt att (clock + 250) :: r.1, r.2)
  else ([], clock)
termination_by timeout + 250 - clock
decreasing_by omega

/-- `Connection.try_connect_impl(timeout)` on an address that never accepts:
run the retry loop, then report the failure (`cs_common.error`), call
`self.disconnect()`, and post the window status message. -/
def try_connect_impl (timeout : Nat) : List Eff × Nat :=
  let r := tryLoop timeout 0 1
  (r.1 ++ [.reportError, .disconnectCall, .statusMessage], r.2)

/-- One parsed top-level child of `cs_parser.parse` over the eval region:
its node name and its offsets inside the region. -/
structure PForm where
  name : String
  start : Nat
  stop : Nat
  deriving DecidableEq

/-- A selected region prepared for eval: its begin offset in the view and
the parsed children of its text. -/
structure Region where
  start : Nat
  children : List PForm
  deriving DecidableEq

/-- The form filter in `Connection.code`: children whose name is not
`comment` or `discard`. -/
def topForms (reg : Region) : List PForm :=
  reg.children.filter (fun ch => !(ch.name == "comment" || ch.name == "discard"))

/-- One registry entry created by
`cs_eval.Eval(view, region, id, batch_id, on_finish)`. -/
structure EvalRec where
  id : String
  batch_id : Nat
  start : Nat
  stop : Nat
  deriving DecidableEq

/-- The composite identifier `f'{batch_id}.{idx}'`. -/
def mkId (batch idx : Nat) : String :=
  toString batch ++ "." ++ toString idx

/-- The per-region body of `ConnectionSocketRepl.eval`: one batch id, one
`cs_eval.Eval` per top-level form — ids `<batch>.<idx>` with `idx` assigned
by `enumerate(forms)` in source order — then one encoded request written to
the socket (`eval_impl`, whose message carries `form.id = batch_id`).
Registry insertion is emitted as a `register` event per created Eval and
the write as a single `send` event, in program order. -/
def evalOneRegion (batch_id : Nat) (reg : Region) : List EvalRec × List Eff :=
  let evs := (topForms reg).enum.map (fun p =>
    { id := mkId batch_id p.1, batch_id := batch_id,
      start := reg.start + p.2.start, stop := reg.start + p.2.stop : EvalRec })
  (evs, evs.map (fun e => Eff.register e.id) ++ [.send (toString batch_id)])

/-- The region loop of `ConnectionSocketRepl.eval`. Modelled from the spec
for the id source: `cs_eval.Eval.next_id()` is not under src; per the spec
batch identifiers are fresh, modelled by the counter `c` advancing once per
region. Returns the created evals, the effect trace, and the advanced
counter. -/
def evalCall (c : Nat) : List Region → List EvalRec × List Eff × Nat
  | [] => ([], [], c)
  | reg :: rest =>
    let one := evalOneRegion c reg
    let r := evalCall (c + 1) rest
    (one.1 ++ r.1, one.2 ++ r.2.1, r.2.2)

/-- `ConnectionSocketRepl.eval`: reset this window's warnings, then process
each selected region. -/
def eval (c : Nat) (regions : List Region) : List EvalRec × List Eff × Nat :=
  let r := evalCall c regions
  (r.1, .resetWarnings :: r.2.1, r.2.2)

/-- `ConnectionSocketRepl.eval_status`: one fresh batch id, one StatusEval
with id `<batch>.0`, then the encoded request. -/
def eval_status (c : Nat) : List Eff :=
  [.resetWarnings, .register (mkId c 0), .send (toString c)]

/-- `Connection.lookup` (cs_conn.py): create the Eval for the symbol region,
then send the lookup request via `lookup_impl`. The bare id handed out by
`cs_eval.Eval(view, region)` is modelled (from the spec) as the fresh
counter value. -/
def lookup (c : Nat) : List Eff :=
  [.register (toString c), .send (toString c)]

/-- `ConnectionSocketRepl.load_file`: delegates to `eval` with one region
spanning the whole file. -/
def load_file (c : Nat) (fileRegion : Region) : List EvalRec × List Eff × Nat :=
  eval c [fileRegion]

/-- `Connection.eval` (cs_conn.py, the base class): for each selected
region, create one Eval and then send one encoded form. -/
def base_eval (c : Nat) : List Region → List Eff
  | [] => []
  | _ :: rest => .register (toString c) :: .send (toString c) :: base_eval (c + 1) rest

/-- The five phase glyphs of cs_conn.py. -/
def phases : List String := ["🌑", "🌒", "🌓", "🌔", "🌕"]

/-- `Connection.set_status`: `phases[phase] + ' ' + message`. -/
def statusStr (phase : Nat) (message : String) : String :=
  phases.getD phase ("") ++ " " ++ message

/-- One unit of input to the receive loop of `read_loop`: either a framed
text line — whether it contains the started-sentinel substring, and its
`cs_parser.parse_as_dict` result, where `none` models a parse that raises a
non-OSError exception — or a socket read that raises `OSError`. -/
inductive RLine where
  | line (hasStartedTag : Bool) (parsed : Option Msg)
  | recvOSError
  deriving DecidableEq

/-- How the `try` body of `read_loop` finished: normal end of stream, an
`OSError` out of `recv`, or a non-OSError exception from handling a
post-handshake line. -/
inductive Outcome where
  | ended
  | osErr
  | otherExc
  deriving DecidableEq

/-- The `for line in lines(self.socket)` loop of `read_loop`, threading the
`started` flag, the world and the effect trace. Before the sentinel, a line
is only scanned for the started tag (which sets status phase 4 with the
address); after it, every line is parsed and dispatched via `handle_msg`,
and a non-OSError exception — a parse failure, or a `KeyError` raised
inside a handler — aborts with `Outcome.otherExc`. -/
def runLines (self : SelfConn) :
    List RLine → Bool → World → List Eff → World × List Eff × Outcome
  | [], _, w, tr => (w, tr, .ended)
  | .recvOSError :: _, _, w, tr => (w, tr, .osErr)
  | .line hasTag parsed :: rest, started, w, tr =>
    if started then
      match parsed with
      | none => (w, tr, .otherExc)
      | some m =>
        match handle_msg m with
        | .error _ => (w, tr, .otherExc)
        | .ok es => runLines self rest true w (tr ++ es)
    else
      if hasTag then
        runLines self rest true
          { w with statusBar := some (statusStr 4 self.addr) }
          (tr ++ [.setStatus (statusStr 4 self.addr)])
      else runLines self rest false w tr

/-- `ConnectionSocketRepl.read_loop`: set the Upgrading status, send the
bootstrap payloads (`core.clj`, `socket_repl.clj`, an optional shared
snippet, and `(repl)`), then run the receive loop. The `try` around the
body catches only `OSError` (`except OSError: pass`); `self.disconnect()`
stands after the `try`, so a non-OSError exception propagates out of the
function — result flag `true` — and `disconnect` is never reached. -/
def upgradeWorld (w : World) : World :=
  { w with statusBar := some (statusStr 1 ("Upgrading REPL")) }

/-- The effects of the handshake prologue of `read_loop`: the Upgrading
status update and the bootstrap sends (`core.clj`, `socket_repl.clj`, the
optional `eval_shared` snippet, and `(repl)`). -/
def bootTrace (sharedSnippet : Option String) : List Eff :=
  [.setStatus (statusStr 1 ("Upgrading REPL")), .send ("core.clj"), .send ("socket_repl.clj")]
    ++ (match sharedSnippet with | some s => [Eff.send s] | none => [])
    ++ [.send ("(repl)\n")]

def read_loop (self : SelfConn) (sharedSnippet : Option String) (items : List RLine)
    (w : World) : World × List Eff × Bool :=
  let r := runLines self items false (upgradeWorld w) (bootTrace sharedSnippet)
  match r.2.2 with
  | .otherExc => (r.1, r.2.1, true)
  | _ =>
    let d := disconnect self r.1
    (d.1, r.2.1 ++ .disconnectCall :: d.2, false)

theorem escape_cons_backslash (s : List Char) :
    escape ('\\' :: s) = '\\' :: '\\' :: escape s := by
  simp [escape, replace1]

theorem escape_cons_quote (s : List Char) :
    escape ('"' :: s) = '\\' :: '"' :: escape s := by
  simp [escape, replace1]

theorem escape_cons_other {c : Char} (hb : c ≠ '\\') (hq : c ≠ '"') (s : List Char) :
    escape (c :: s) = c :: escape s := by
  simp [escape, replace1, hb, hq]

theorem escape_eq_nil {s : List Char} (h : escape s = []) : s = [] := by
  cases s with
  | nil => rfl
  | cons c s =>
    by_cases hb : c = '\\'
    · subst hb; rw [escape_cons_backslash] at h; cases h
    · by_cases hq : c = '"'
      · subst hq; rw [escape_cons_quote] at h; cases h
      · rw [escape_cons_other hb hq] at h; cases h

theorem unescape_escape (s : List Char) : unescape (escape s) = s := by
  induction s with
  | nil => rfl
  | cons c s ih =>
    by_cases hb : c = '\\'
    · subst hb
      rw [escape_cons_backslash, unescape]
      simp [ih]
    · by_cases hq : c = '"'
      · subst hq
        rw [escape_cons_quote, unescape]
        simp [ih]
      · rw [escape_cons_other hb hq]
        cases he : escape s with
        | nil =>
          have hs : s = [] := escape_eq_nil he
          subst hs
          rw [unescape]
        | cons e es =>
          rw [unescape]
          simp only [hb, if_false]
          rw [← he, ih]

/-- C4: `escape` doubles every backslash, prefixes every double quote with a
backslash, and leaves every other character (control characters included)
unchanged; it is injective, and the corresponding unescaping recovers the
original string, so a Form's `code` field survives the encode/decode round
trip byte-for-byte. -/
theorem C4_escape_roundtrip :
    (∀ (s : List Char), escape ('\\' :: s) = '\\' :: '\\' :: escape s) ∧
    (∀ (s : List Char), escape ('"' :: s) = '\\' :: '"' :: escape s) ∧
    (∀ (c : Char) (s : List Char), c ≠ '\\' → c ≠ '"' → escape (c :: s) = c :: escape s) ∧
    (∀ (s : List Char), unescape (escape s) = s) ∧
    Function.Injective escape := by
  refine ⟨escape_cons_backslash, escape_cons_quote,
    fun c s hb hq => escape_cons_other hb hq s, unescape_escape, ?_⟩
  intro a b h
  have ha := unescape_escape a
  have hb := unescape_escape b
  rw [h] at ha
  rw [ha] at hb
  exact hb

/-- C4 witness: the spec's example — code `(println "a\\b")` — escapes with
every backslash doubled and every quote prefixed, and decodes back to the
original; a control character (tab) passes through unchanged. -/
theorem C4_escape_roundtrip_witness :
    unescape (escape ['(', 'p', 'r', 'i', 'n', 't', 'l', 'n', ' ', '"', 'a', '\\', 'b', '"', ')'])
        = ['(', 'p', 'r', 'i', 'n', 't', 'l', 'n', ' ', '"', 'a', '\\', 'b', '"', ')'] ∧
    ('\t' ≠ '\\' ∧ '\t' ≠ '"' ∧ escape ['\t'] = '\t' :: escape []) :=
  ⟨C4_escape_roundtrip.2.2.2.1 _,
   by decide, by decide,
   C4_escape_roundtrip.2.2.1 '\t' [] (by decide) (by decide)⟩

/-- C6: `handle_msg` consults the handlers in the fixed order ret, ex, done,
watch, lookup, err; exactly the matching tag's handler fires (for lookup
and err the mandatory `msg['val']` access raises when `val` is absent), and
a message with any other tag fires no handler and produces no effect. -/
theorem C6_dispatch (msg : Msg) :
    (msg.tag = "ret" →
      handle_msg msg
        = .ok [.onSuccess (pyFmt msg.id ++ "." ++ pyFmt msg.idx) msg.val msg.time]) ∧
    (msg.tag = "ex" →
      handle_msg msg = .ok [.onException
        (if msg.idx.isSome then some (pyFmt msg.id ++ "." ++ pyFmt msg.idx) else msg.id)
        msg.val msg.source msg.line msg.column msg.trace]) ∧
    (msg.tag = "done" → handle_msg msg = .ok [.onDone msg.id]) ∧
    (msg.tag = "watch" → handle_msg msg = .ok [.onWatch msg.watch_id msg.val]) ∧
    (msg.tag = "lookup" →
      handle_msg msg = (match msg.val with
        | some v => .ok [.onLookup msg.id (some v)]
        | none => .error ())) ∧
    (msg.tag = "err" →
      handle_msg msg = (match msg.val with
        | some v => .ok (if v.startsWith ("Reflection warning") then [Eff.addWarning] else [])
        | none => .error ())) ∧
    (msg.tag ∉ (["ret", "ex", "done", "watch", "lookup", "err"] : List String) →
      handle_msg msg = .ok []) := by
  refine ⟨?_, ?_, ?_, ?_, ?_, ?_, ?_⟩ <;> intro h <;>
    simp_all [handle_msg, handle_value, handle_exception, handle_done, handle_watch,
      handle_lookup, handle_err]

/-- C6 witness: a concrete `done` message fires exactly the done handler,
and a concrete `err` message without `val` raises out of its handler. -/
theorem C6_dispatch_witness :
    ((Msg.tag { tag := "done", id := some ("17") } = "done") ∧
      handle_msg { tag := "done", id := some ("17") } = .ok [.onDone (some ("17"))]) ∧
    ((Msg.tag { tag := "err" } = "err") ∧
      handle_msg { tag := "err" } = .error ()) :=
  ⟨⟨rfl, (C6_dispatch { tag := "done", id := some ("17") }).2.2.1 rfl⟩,
   ⟨rfl, (C6_dispatch { tag := "err" }).2.2.2.2.2.1 rfl⟩⟩

/-- C10: a `ret` message with no `idx` field still fires `handle_value`, and
the success callback receives the composite identifier `"<id>.None"` — the
literal text `None` interpolated into the suffix. -/
theorem C10_ret_without_idx (msg : Msg) (htag : msg.tag = "ret") (hidx : msg.idx = none) :
    handle_msg msg = .ok [.onSuccess (pyFmt msg.id ++ ".None") msg.val msg.time] := by
  have h : pyFmt msg.id ++ "." ++ pyFmt msg.idx = pyFmt msg.id ++ ".None" := by
    rw [hidx]
    rw [String.append_assoc]
    rfl
  simp [handle_msg, handle_value, htag, h]

/-- C10 witness: a concrete `ret` message with id 7 and no idx invokes the
success callback under the identifier `"7.None"`. -/
theorem C10_ret_without_idx_witness :
    handle_msg { tag := "ret", id := some ("7"), val := some ("42") }
      = .ok [.onSuccess (pyFmt (some ("7")) ++ ".None") (some ("42")) none] :=
  C10_ret_without_idx { tag := "ret", id := some ("7"), val := some ("42") } rfl rfl

/-- C2: `disconnect()` is idempotent. On a world already disconnecting it
returns immediately with no state change and no effect; otherwise it sets
the flag, so a second sequential call performs no further teardown: over
the two calls the socket is closed at most once (exactly once when a socket
was open, never when none was), the status indicator is cleared exactly
once, and the `disconnecting` flag transitions false → true exactly once. -/
theorem C2_disconnect_idempotent (self : SelfConn) (w : World) :
    (w.disconnecting = true → disconnect self w = (w, [])) ∧
    (w.disconnecting = false →
      (disconnect self w).1.disconnecting = true ∧
      disconnect self (disconnect self w).1 = ((disconnect self w).1, []) ∧
      (disconnect self w).2.count Eff.closeSocket ≤ 1 ∧
      (w.socket.isSome = true → (disconnect self w).2.count Eff.closeSocket = 1) ∧
      (w.socket = none → (disconnect self w).2.count Eff.closeSocket = 0) ∧
      (disconnect self w).2.count Eff.clearStatus = 1) := by
  have noop : ∀ w' : World, w'.disconnecting = true → disconnect self w' = (w', []) := by
    intro w' h
    simp [disconnect, disconnect_with, h]
  constructor
  · exact noop w
  · intro h
    have hflag : (disconnect self w).1.disconnecting = true := by
      cases hs : w.socket <;>
        simp [disconnect, disconnect_with, disconnect_impl, h, hs]
    refine ⟨hflag, ?_, ?_, ?_, ?_, ?_⟩
    · exact noop _ hflag
    · cases hs : w.socket <;>
        simp [disconnect, disconnect_with, disconnect_impl, h, hs, List.count_cons,
          List.count_append]
    · intro hsome
      cases hs : w.socket with
      | none => rw [hs] at hsome; cases hsome
      | some v =>
        simp [disconnect, disconnect_with, disconnect_impl, h, hs, List.count_cons,
          List.count_append]
    · intro hnone
      simp [disconnect, disconnect_with, disconnect_impl, h, hnone, List.count_cons,
        List.count_append]
    · cases hs : w.socket <;>
        simp [disconnect, disconnect_with, disconnect_impl, h, hs, List.count_cons,
          List.count_append]

/-- C2 witness: on a concrete live world, disconnect flips the flag, closes
the socket once, clears the status once, and a second call is a no-op. -/
theorem C2_disconnect_idempotent_witness :
    (World.disconnecting
        { disconnecting := false, socket := some 3, conn := some 0,
          statusBar := some ("🌕 ready"), evals := [], watches := [] } = false) ∧
    ((disconnect { window := 1, addr := "localhost:5555" }
        { disconnecting := false, socket := some 3, conn := some 0,
          statusBar := some ("🌕 ready"), evals := [], watches := [] }).1.disconnecting = true ∧
      disconnect { window := 1, addr := "localhost:5555" }
          (disconnect { window := 1, addr := "localhost:5555" }
            { disconnecting := false, socket := some 3, conn := some 0,
              statusBar := some ("🌕 ready"), evals := [], watches := [] }).1
        = ((disconnect { window := 1, addr := "localhost:5555" }
            { disconnecting := false, socket := some 3, conn := some 0,
              statusBar := some ("🌕 ready"), evals := [], watches := [] }).1, []) ∧
      (disconnect { window := 1, addr := "localhost:5555" }
          { disconnecting := false, socket := some 3, conn := some 0,
            statusBar := some ("🌕 ready"), evals := [], watches := [] }).2.count
          Eff.closeSocket ≤ 1 ∧
      (Option.isSome (some 3) = true →
        (disconnect { window := 1, addr := "localhost:5555" }
            { disconnecting := false, socket := some 3, conn := some 0,
              statusBar := some ("🌕 ready"), evals := [], watches := [] }).2.count
            Eff.closeSocket = 1) ∧
      ((some 3 : Option Nat) = none →
        (disconnect { window := 1, addr := "localhost:5555" }
            { disconnecting := false, socket := some 3, conn := some 0,
              statusBar := some ("🌕 ready"), evals := [], watches := [] }).2.count
            Eff.closeSocket = 0) ∧
      (disconnect { window := 1, addr := "localhost:5555" }
          { disconnecting := false, socket := some 3, conn := some 0,
            statusBar := some ("🌕 ready"), evals := [], watches := [] }).2.count
          Eff.clearStatus = 1) :=
  ⟨rfl, (C2_disconnect_idempotent { window := 1, addr := "localhost:5555" }
      { disconnecting := false, socket := some 3, conn := some 0,
        statusBar := some ("🌕 ready"), evals := [], watches := [] }).2 rfl⟩

/-- C8: disconnecting evicts exactly the pending Evals and watches whose
owning window equals the connection's window, leaves every other entry in
place, and invokes no pending callback while doing so. -/
theorem C8_eviction (self : SelfConn) (w : World) (h : w.disconnecting = false) :
    ((disconnect self w).1.evals = w.evals.filter (fun e => !(e.window == self.window))) ∧
    (∀ e ∈ w.evals, e.window = self.window → e ∉ (disconnect self w).1.evals) ∧
    (∀ e ∈ w.evals, e.window ≠ self.window → e ∈ (disconnect self w).1.evals) ∧
    ((disconnect self w).1.watches = w.watches.filter (fun we => !(we.window == self.window))) ∧
    (∀ we ∈ w.watches, we.window = self.window → we ∉ (disconnect self w).1.watches) ∧
    (∀ we ∈ w.watches, we.window ≠ self.window → we ∈ (disconnect self w).1.watches) ∧
    (∀ eff ∈ (disconnect self w).2, eff.isCallback = false) := by
  have hevals : (disconnect self w).1.evals
      = w.evals.filter (fun e => !(e.window == self.window)) := by
    cases hs : w.socket <;>
      simp [disconnect, disconnect_with, disconnect_impl, erase_evals, h, hs]
  have hwatches : (disconnect self w).1.watches
      = w.watches.filter (fun we => !(we.window == self.window)) := by
    cases hs : w.socket <;>
      simp [disconnect, disconnect_with, disconnect_impl, erase_watches, h, hs]
  refine ⟨hevals, ?_, ?_, hwatches, ?_, ?_, ?_⟩
  · intro e he hwin
    rw [hevals]
    simp [List.mem_filter, hwin]
  · intro e he hwin
    rw [hevals]
    simp [List.mem_filter, he, hwin]
  · intro we hwe hwin
    rw [hwatches]
    simp [List.mem_filter, hwin]
  · intro we hwe hwin
    rw [hwatches]
    simp [List.mem_filter, hwe, hwin]
  · intro eff heff
    cases hs : w.socket with
    | none =>
      have htr : (disconnect self w).2
          = [Eff.eraseWatches, Eff.clearStatus, Eff.eraseEvals, Eff.resetWarnings] := by
        simp [disconnect, disconnect_with, disconnect_impl, h, hs]
      rw [htr] at heff
      simp only [List.mem_cons, List.not_mem_nil, or_false] at heff
      rcases heff with h1 | h1 | h1 | h1 <;> subst h1 <;> rfl
    | some v =>
      have htr : (disconnect self w).2
          = [Eff.eraseWatches, Eff.closeSocket, Eff.clearStatus, Eff.eraseEvals,
             Eff.resetWarnings] := by
        simp [disconnect, disconnect_with, disconnect_impl, h, hs]
      rw [htr] at heff
      simp only [List.mem_cons, List.not_mem_nil, or_false] at heff
      rcases heff with h1 | h1 | h1 | h1 | h1 <;> subst h1 <;> rfl

/-- C8 witness: on a concrete registry holding entries of two windows,
disconnecting window 1 evicts exactly window 1's entries. -/
theorem C8_eviction_witness :
    (World.disconnecting
        { disconnecting := false, socket := some 3, conn := some 0, statusBar := none,
          evals := [{ id := "1.0", window := 1 }, { id := "2.0", window := 2 }],
          watches := [{ id := 9, window := 2 }] } = false) ∧
    ((disconnect { window := 1, addr := "a" }
        { disconnecting := false, socket := some 3, conn := some 0, statusBar := none,
          evals := [{ id := "1.0", window := 1 }, { id := "2.0", window := 2 }],
          watches := [{ id := 9, window := 2 }] }).1.evals
      = ([{ id := "1.0", window := 1 }, { id := "2.0", window := 2 }] :
          List EvalEntry).filter (fun e => !(e.window == 1))) :=
  ⟨rfl, (C8_eviction { window := 1, addr := "a" }
      { disconnecting := false, socket := some 3, conn := some 0, statusBar := none,
        evals := [{ id := "1.0", window := 1 }, { id := "2.0", window := 2 }],
        watches := [{ id := 9, window := 2 }] } rfl).1⟩

theorem str_append_cancel {s a b : String} (h : s ++ a = s ++ b) : a = b := by
  have hd := congrArg String.data h
  simp [String.data_append] at hd
  exact String.ext hd

theorem mkId_ne {b i j : Nat} (h : toString i ≠ toString j) : mkId b i ≠ mkId b j := by
  intro heq
  exact h (str_append_cancel heq)

theorem evalCall_enumFrom (regions : List Region) : ∀ (n c : Nat),
    evalCall c regions =
      (((regions.enumFrom n).map (fun p => (evalOneRegion (c + p.1 - n) p.2).1)).flatten,
       ((regions.enumFrom n).map (fun p => (evalOneRegion (c + p.1 - n) p.2).2)).flatten,
       c + regions.length) := by
  induction regions with
  | nil => intro n c; simp [evalCall]
  | cons reg rest ih =>
    intro n c
    have hhead : c + n - n = c := by omega
    have hfun1 : (fun p : Nat × Region => (evalOneRegion (c + p.1 - n) p.2).1)
        = (fun p : Nat × Region => (evalOneRegion ((c + 1) + p.1 - (n + 1)) p.2).1) := by
      funext p
      have harg : c + p.1 - n = (c + 1) + p.1 - (n + 1) := by omega
      rw [harg]
    have hfun2 : (fun p : Nat × Region => (evalOneRegion (c + p.1 - n) p.2).2)
        = (fun p : Nat × Region => (evalOneRegion ((c + 1) + p.1 - (n + 1)) p.2).2) := by
      funext p
      have harg : c + p.1 - n = (c + 1) + p.1 - (n + 1) := by omega
      rw [harg]
    simp only [evalCall, List.enumFrom_cons, List.map_cons, List.flatten_cons,
      List.length_cons, hfun1, hfun2, ih (n + 1) (c + 1)]
    have harg : (c + 1) + n - (n + 1) = c := by omega
    rw [harg]
    simp only [Prod.mk.injEq]
    refine ⟨trivial, trivial, by omega⟩

theorem evalCall_enum (c : Nat) (regions : List Region) :
    evalCall c regions =
      ((regions.enum.map (fun p => (evalOneRegion (c + p.1) p.2).1)).flatten,
       (regions.enum.map (fun p => (evalOneRegion (c + p.1) p.2).2)).flatten,
       c + regions.length) := by
  have h := evalCall_enumFrom regions 0 c
  simpa [List.enum] using h

/-- C5: submitting a region whose parsed code contains n top-level forms
(comments and discards excluded) creates exactly n Eval records with
identifiers `<batch>.0` … `<batch>.(n-1)` in source order, all sharing the
batch identifier; 3 forms yield exactly the 3 distinct identifiers
`<batch>.0`, `<batch>.1`, `<batch>.2`; and the region loop allocates one
fresh batch identifier per region (the counter advances once per region,
region k getting batch c + k). -/
theorem C5_batch_identifiers :
    (∀ (b : Nat) (reg : Region),
      ((evalOneRegion b reg).1.map EvalRec.id
          = (List.range (topForms reg).length).map (fun i => mkId b i)) ∧
      (∀ e ∈ (evalOneRegion b reg).1, e.batch_id = b) ∧
      ((topForms reg).length = 3 →
        (evalOneRegion b reg).1.map EvalRec.id = [mkId b 0, mkId b 1, mkId b 2] ∧
        ((evalOneRegion b reg).1.map EvalRec.id).Nodup)) ∧
    (∀ (c : Nat) (regions : List Region),
      (evalCall c regions).2.2 = c + regions.length ∧
      (eval c regions).1
        = (regions.enum.map (fun p => (evalOneRegion (c + p.1) p.2).1)).flatten) := by
  have hids : ∀ (b : Nat) (reg : Region),
      (evalOneRegion b reg).1.map EvalRec.id
        = (List.range (topForms reg).length).map (fun i => mkId b i) := by
    intro b reg
    simp only [evalOneRegion, List.map_map]
    have hcomp : (EvalRec.id ∘ fun p : Nat × PForm =>
        ({ id := mkId b p.1, batch_id := b,
           start := reg.start + p.2.start, stop := reg.start + p.2.stop } : EvalRec))
        = (fun i => mkId b i) ∘ Prod.fst := rfl
    rw [hcomp, ← List.map_map, List.enum_map_fst]
  refine ⟨fun b reg => ⟨hids b reg, ?_, ?_⟩, fun c regions => ⟨?_, ?_⟩⟩
  · intro e he
    simp only [evalOneRegion, List.mem_map] at he
    obtain ⟨p, _, hp⟩ := he
    rw [← hp]
  · intro h3
    have h := hids b reg
    rw [h3] at h
    have hr : (List.range 3).map (fun i => mkId b i) = [mkId b 0, mkId b 1, mkId b 2] := rfl
    rw [hr] at h
    refine ⟨h, ?_⟩
    rw [h]
    have h01 : mkId b 0 ≠ mkId b 1 := mkId_ne (by decide)
    have h02 : mkId b 0 ≠ mkId b 2 := mkId_ne (by decide)
    have h12 : mkId b 1 ≠ mkId b 2 := mkId_ne (by decide)
    simp [List.nodup_cons, h01, h02, h12]
  · rw [evalCall_enum]
  · simp only [eval]
    rw [evalCall_enum]

/-- A concrete selected region: a comment plus three top-level expressions. -/
def demoRegion : Region where
  start := 5
  children :=
    [{ name := "comment", start := 0, stop := 4 },
     { name := "parens", start := 5, stop := 10 },
     { name := "token", start := 11, stop := 12 },
     { name := "parens", start := 13, stop := 20 }]

/-- C5 witness: a region parsed into a comment plus 3 top-level expressions,
submitted under batch 7, yields exactly the ids 7.0, 7.1, 7.2. -/
theorem C5_batch_identifiers_witness :
    ((topForms demoRegion).length = 3) ∧
    ((evalOneRegion 7 demoRegion).1.map EvalRec.id = [mkId 7 0, mkId 7 1, mkId 7 2] ∧
      ((evalOneRegion 7 demoRegion).1.map EvalRec.id).Nodup) :=
  ⟨rfl, (C5_batch_identifiers.1 7 demoRegion).2.2 rfl⟩

/-- Nothing is inserted into the registry after a request has been written:
at every send position in the trace, no later trace position is a registry
insertion. -/
def noRegisterAfterSend (tr : List Eff) : Prop :=
  ∀ i j : Nat, i < j → ∀ (hi : i < tr.length) (hj : j < tr.length),
    ∀ p, tr.get ⟨i, hi⟩ = Eff.send p → (tr.get ⟨j, hj⟩).isRegister = false

theorem noRegisterAfterSend_of_send_last (pre : List Eff) (p0 : String)
    (hpre : ∀ q, Eff.send q ∉ pre) : noRegisterAfterSend (pre ++ [Eff.send p0]) := by
  intro i j hij hi hj q hsend
  exfalso
  have hlen : (pre ++ [Eff.send p0]).length = pre.length + 1 := by simp
  rw [hlen] at hi hj
  have hi' : i < pre.length := by omega
  have hget : (pre ++ [Eff.send p0]).get ⟨i, by simp; omega⟩ = pre.get ⟨i, hi'⟩ :=
    List.get_append i hi'
  have hmem : pre.get ⟨i, hi'⟩ ∈ pre := pre.get_mem _ _
  rw [hget] at hsend
  rw [hsend] at hmem
  exact hpre q hmem

theorem evalOneRegion_block_noRegisterAfterSend (b : Nat) (reg : Region) :
    noRegisterAfterSend (evalOneRegion b reg).2 := by
  have hshape : (evalOneRegion b reg).2
      = ((evalOneRegion b reg).1.map (fun e => Eff.register e.id)) ++ [Eff.send (toString b)] :=
    rfl
  rw [hshape]
  apply noRegisterAfterSend_of_send_last
  intro q hq
  simp [List.mem_map] at hq

theorem base_eval_enumFrom (regions : List Region) : ∀ (n c : Nat),
    base_eval c regions
      = ((regions.enumFrom n).map (fun p =>
          [Eff.register (toString (c + p.1 - n)), Eff.send (toString (c + p.1 - n))])).flatten := by
  induction regions with
  | nil => intro n c; simp [base_eval]
  | cons reg rest ih =>
    intro n c
    have hhead : c + n - n = c := by omega
    have hfun : (fun p : Nat × Region =>
          [Eff.register (toString (c + p.1 - n)), Eff.send (toString (c + p.1 - n))])
        = (fun p : Nat × Region =>
          [Eff.register (toString ((c + 1) + p.1 - (n + 1))),
           Eff.send (toString ((c + 1) + p.1 - (n + 1)))]) := by
      funext p
      have harg : c + p.1 - n = (c + 1) + p.1 - (n + 1) := by omega
      rw [harg]
    simp only [base_eval, List.enumFrom_cons, List.map_cons, List.flatten_cons, hfun,
      ih (n + 1) (c + 1)]
    have harg : (c + 1) + n - (n + 1) = c := by omega
    rw [harg]
    rfl

/-- C7: in every submission path the registry insertion precedes the socket
write. For the socket-REPL `eval`, the trace is, per region, the created
Evals' registry insertions followed by exactly one send, and within each
region block nothing is registered after the send; the same holds for
`eval_status`, for the base-class `lookup` and `eval`, and `load_file`
delegates to `eval` on the whole-file region. -/
theorem C7_insert_before_write :
    (∀ (b : Nat) (reg : Region),
      (evalOneRegion b reg).2
        = ((evalOneRegion b reg).1.map (fun e => Eff.register e.id)) ++ [Eff.send (toString b)] ∧
      noRegisterAfterSend (evalOneRegion b reg).2) ∧
    (∀ (c : Nat) (regions : List Region),
      (eval c regions).2.1
        = Eff.resetWarnings
            :: (regions.enum.map (fun p => (evalOneRegion (c + p.1) p.2).2)).flatten ∧
      (∀ bl ∈ regions.enum.map (fun p => (evalOneRegion (c + p.1) p.2).2),
        noRegisterAfterSend bl)) ∧
    (∀ c : Nat, noRegisterAfterSend (eval_status c)) ∧
    (∀ c : Nat, noRegisterAfterSend (lookup c)) ∧
    (∀ (c : Nat) (fr : Region), (load_file c fr).2.1 = (eval c [fr]).2.1) ∧
    (∀ (c : Nat) (regions : List Region),
      base_eval c regions
        = (regions.enum.map (fun p =>
            [Eff.register (toString (c + p.1)), Eff.send (toString (c + p.1))])).flatten ∧
      (∀ bl ∈ regions.enum.map (fun p =>
          [Eff.register (toString (c + p.1)), Eff.send (toString (c + p.1))]),
        noRegisterAfterSend bl)) := by
  refine ⟨fun b reg => ⟨rfl, evalOneRegion_block_noRegisterAfterSend b reg⟩,
    fun c regions => ⟨?_, ?_⟩, ?_, ?_, fun c fr => rfl, fun c regions => ⟨?_, ?_⟩⟩
  · simp only [eval]
    rw [evalCall_enum]
  · intro bl hbl
    simp only [List.mem_map] at hbl
    obtain ⟨p, _, hp⟩ := hbl
    rw [← hp]
    exact evalOneRegion_block_noRegisterAfterSend _ _
  · intro c
    have hshape : eval_status c
        = [Eff.resetWarnings, Eff.register (mkId c 0)] ++ [Eff.send (toString c)] := rfl
    rw [hshape]
    apply noRegisterAfterSend_of_send_last
    intro q hq
    simp at hq
  · intro c
    have hshape : lookup c = [Eff.register (toString c)] ++ [Eff.send (toString c)] := rfl
    rw [hshape]
    apply noRegisterAfterSend_of_send_last
    intro q hq
    simp at hq
  · have h := base_eval_enumFrom regions 0 c
    simpa [List.enum] using h
  · intro bl hbl
    simp only [List.mem_map] at hbl
    obtain ⟨p, _, hp⟩ := hbl
    rw [← hp]
    have hshape : [Eff.register (toString (c + p.1)), Eff.send (toString (c + p.1))]
        = [Eff.register (toString (c + p.1))] ++ [Eff.send (toString (c + p.1))] := rfl
    rw [hshape]
    apply noRegisterAfterSend_of_send_last
    intro q hq
    simp at hq

/-- C7 witness: the submission block of a concrete region under batch 5 is
one of the eval trace's region blocks, and it registers nothing after its
send. -/
theorem C7_insert_before_write_witness :
    ((evalOneRegion 5 demoRegion).2
        ∈ ([demoRegion].enum.map (fun p => (evalOneRegion (5 + p.1) p.2).2))) ∧
    noRegisterAfterSend (evalOneRegion 5 demoRegion).2 :=
  ⟨by simp, (C7_insert_before_write.2.1 5 [demoRegion]).2 _ (by simp)⟩

theorem takeWhile_append_not_mem {bs : List Nat} (l : List Nat) (h : 10 ∉ bs) :
    (bs ++ l).takeWhile (· != 10) = bs ++ l.takeWhile (· != 10) := by
  induction bs with
  | nil => simp
  | cons c bs ih =>
    have hc : c ≠ 10 := fun hh => h (by rw [hh]; exact List.mem_cons_self _ _)
    have h' : 10 ∉ bs := fun hm => h (List.mem_cons_of_mem _ hm)
    simp [List.takeWhile_cons, hc, ih h']

theorem dropWhile_append_not_mem {bs : List Nat} (l : List Nat) (h : 10 ∉ bs) :
    (bs ++ l).dropWhile (· != 10) = l.dropWhile (· != 10) := by
  induction bs with
  | nil => simp
  | cons c bs ih =>
    have hc : c ≠ 10 := fun hh => h (by rw [hh]; exact List.mem_cons_self _ _)
    have h' : 10 ∉ bs := fun hm => h (List.mem_cons_of_mem _ hm)
    simp [List.dropWhile_cons, hc, ih h']

/-- C3: the lines generator is chunk-boundary independent — for every way of
splitting the byte stream into nonempty `recv` chunks it yields exactly the
lines of the whole stream arriving as one chunk; lines split on the single
newline byte 0x0A, a nonempty unterminated remainder is flushed as one
final line at end of stream, and an empty remainder yields nothing extra. -/
theorem C3_chunk_independence :
    (∀ chunks : List (List Nat), (∀ c ∈ chunks, c ≠ []) →
      lines chunks = lines [chunks.flatten]) ∧
    (∀ bs : List Nat, 10 ∉ bs → bs ≠ [] → lines [bs] = [bs]) ∧
    (∀ bs : List Nat, 10 ∉ bs → lines [bs ++ [10]] = [bs]) ∧
    lines [[]] = [] := by
  have hnil : splitBuf [] = ([], []) := splitBuf_not_mem (by simp)
  refine ⟨?_, ?_, ?_, ?_⟩
  · intro chunks hne
    by_cases hf : chunks.flatten = []
    · have hcn : chunks = [] := by
        cases chunks with
        | nil => rfl
        | cons c cs =>
          exfalso
          have hc := hne c (List.mem_cons_self c cs)
          rw [List.flatten_cons, List.append_eq_nil] at hf
          exact hc hf.1
      subst hcn
      simp [lines, linesGen]
    · rw [lines, lines, linesGen_eq_oneShot chunks hne [],
        linesGen_eq_oneShot [chunks.flatten]
          (by intro c hc; simp only [List.mem_singleton] at hc; rw [hc]; exact hf) []]
      simp
  · intro bs h10 hne
    rw [lines, linesGen]
    simp only [hne, if_false]
    rw [List.nil_append, splitBuf_not_mem h10]
    rw [linesGen]
    rw [splitBuf_not_mem h10]
    simp [flushBuf, hne]
  · intro bs h10
    have hmem : (10 : Nat) ∈ bs ++ [10] := by simp
    have hsplit : splitBuf (bs ++ [10]) = ([bs], []) := by
      rw [splitBuf_mem hmem, takeWhile_append_not_mem _ h10, dropWhile_append_not_mem _ h10]
      simp only [List.takeWhile, List.dropWhile]
      norm_num
      rw [hnil]
      simp
    have hne2 : bs ++ [10] ≠ [] := by simp
    rw [lines, linesGen]
    simp only [hne2, if_false]
    rw [List.nil_append, hsplit]
    rw [linesGen, hnil]
    simp [flushBuf]
  · rw [lines, linesGen]
    simp only [if_pos rfl]
    rw [hnil]
    simp [flushBuf]

/-- C3 witness: the bytes `"a\nb"` split as chunks `[0x61]` then
`[0x0A, 0x62]` frame identically to the single chunk, and a lone
unterminated chunk is flushed as one line. -/
theorem C3_chunk_independence_witness :
    ((∀ c ∈ ([[97], [10, 98]] : List (List Nat)), c ≠ []) ∧
      lines [[97], [10, 98]] = lines [([[97], [10, 98]] : List (List Nat)).flatten]) ∧
    ((10 : Nat) ∉ ([97] : List Nat) ∧ lines [[97] ++ [10]] = [[97]]) :=
  ⟨⟨by decide, C3_chunk_independence.1 [[97], [10, 98]] (by decide)⟩,
   by decide, C3_chunk_independence.2.2.1 [97] (by decide)⟩

theorem tryLoop_le {timeout clock : Nat} (att : Nat) (h : clock ≤ timeout) :
    tryLoop timeout clock att =
      (Eff.sleep 250 :: Eff.attempt att (clock + 250)
          :: (tryLoop timeout (clock + 250) (att + 1)).1,
       (tryLoop timeout (clock + 250) (att + 1)).2) := by
  rw [tryLoop.eq_def]
  simp [h]

theorem tryLoop_gt {timeout clock : Nat} (att : Nat) (h : ¬clock ≤ timeout) :
    tryLoop timeout clock att = ([], clock) := by
  rw [tryLoop.eq_def]
  simp [h]

theorem tryLoop_props : ∀ (n t c a : Nat), t + 250 - c ≤ n →
    (t < (tryLoop t c a).2) ∧
    (c ≤ t + 250 → (tryLoop t c a).2 ≤ t + 250) ∧
    (∀ e ∈ (tryLoop t c a).1,
      e = Eff.sleep 250 ∨ ∃ d, e = Eff.attempt (a + d) (c + 250 * (d + 1))) := by
  intro n
  induction n with
  | zero =>
    intro t c a h
    have hc : ¬c ≤ t := by omega
    rw [tryLoop_gt a hc]
    exact ⟨by omega, fun h2 => h2, by simp⟩
  | succ n ih =>
    intro t c a h
    by_cases hc : c ≤ t
    · rw [tryLoop_le a hc]
      have hfuel : t + 250 - (c + 250) ≤ n := by omega
      obtain ⟨ih1, ih2, ih3⟩ := ih t (c + 250) (a + 1) hfuel
      refine ⟨ih1, fun _ => ih2 (by omega), ?_⟩
      intro e he
      simp only [List.mem_cons] at he
      rcases he with rfl | rfl | he
      · exact Or.inl rfl
      · exact Or.inr ⟨0, by simp⟩
      · rcases ih3 e he with h1 | ⟨d, hd⟩
        · exact Or.inl h1
        · refine Or.inr ⟨d + 1, ?_⟩
          rw [hd]
          simp only [Eff.attempt.injEq]
          exact ⟨by omega, by omega⟩
    · rw [tryLoop_gt a hc]
      exact ⟨by omega, fun h2 => h2, by simp⟩

theorem tryLoop_first {t : Nat} (c a : Nat) (hc : c ≤ t) :
    Eff.attempt a (c + 250) ∈ (tryLoop t c a).1 := by
  rw [tryLoop_le a hc]
  simp

/-- C1: against an address whose connection attempt always raises, the retry
loop sleeps exactly 250 ms between attempts (attempt n happens at elapsed
time 250·n, so successive attempts are 250 ms apart), the loop exits at an
elapsed time strictly greater than T and at most T + 250 ms, and on
exhaustion it reports the failure exactly once and performs the disconnect
cleanup exactly once. -/
theorem C1_retry_loop (T : Nat) (hT : 0 < T) :
    ((try_connect_impl T).1.count Eff.reportError = 1) ∧
    ((try_connect_impl T).1.count Eff.disconnectCall = 1) ∧
    (T < (try_connect_impl T).2 ∧ (try_connect_impl T).2 ≤ T + 250) ∧
    (∀ m x, Eff.attempt m x ∈ (try_connect_impl T).1 → x = 250 * m) ∧
    (∀ ms, Eff.sleep ms ∈ (try_connect_impl T).1 → ms = 250) ∧
    Eff.attempt 1 250 ∈ (try_connect_impl T).1 := by
  obtain ⟨h1, h2, h3⟩ := tryLoop_props (T + 250) T 0 1 (by omega)
  have hnr : Eff.reportError ∉ (tryLoop T 0 1).1 := by
    intro hmem
    rcases h3 _ hmem with h | ⟨d, h⟩ <;> simp at h
  have hnd : Eff.disconnectCall ∉ (tryLoop T 0 1).1 := by
    intro hmem
    rcases h3 _ hmem with h | ⟨d, h⟩ <;> simp at h
  have htail1 : ([Eff.reportError, Eff.disconnectCall, Eff.statusMessage] :
      List Eff).count Eff.reportError = 1 := by decide
  have htail2 : ([Eff.reportError, Eff.disconnectCall, Eff.statusMessage] :
      List Eff).count Eff.disconnectCall = 1 := by decide
  refine ⟨?_, ?_, ⟨h1, h2 (by omega)⟩, ?_, ?_, ?_⟩
  · rw [try_connect_impl]
    rw [List.count_append, List.count_eq_zero.mpr hnr, htail1]
  · rw [try_connect_impl]
    rw [List.count_append, List.count_eq_zero.mpr hnd, htail2]
  · intro m x hmem
    rw [try_connect_impl] at hmem
    rcases List.mem_append.mp hmem with hin | hin
    · rcases h3 _ hin with h | ⟨d, h⟩
      · simp at h
      · simp only [Eff.attempt.injEq] at h
        omega
    · simp at hin
  · intro ms hmem
    rw [try_connect_impl] at hmem
    rcases List.mem_append.mp hmem with hin | hin
    · rcases h3 _ hin with h | ⟨d, h⟩
      · simp only [Eff.sleep.injEq] at h
        omega
      · simp at h
    · simp at hin
  · rw [try_connect_impl]
    apply List.mem_append.mpr
    left
    have := tryLoop_first 0 1 (Nat.zero_le T)
    simpa using this

/-- C1 witness: with a 300 ms timeout the loop makes attempts at 250 ms and
500 ms, stops at 500 ms ≤ 300 + 250, and reports failure and disconnects
exactly once each. -/
theorem C1_retry_loop_witness :
    0 < 300 ∧
    (((try_connect_impl 300).1.count Eff.reportError = 1) ∧
      ((try_connect_impl 300).1.count Eff.disconnectCall = 1) ∧
      (300 < (try_connect_impl 300).2 ∧ (try_connect_impl 300).2 ≤ 300 + 250) ∧
      (∀ m x, Eff.attempt m x ∈ (try_connect_impl 300).1 → x = 250 * m) ∧
      (∀ ms, Eff.sleep ms ∈ (try_connect_impl 300).1 → ms = 250) ∧
      Eff.attempt 1 250 ∈ (try_connect_impl 300).1) :=
  ⟨by decide, C1_retry_loop 300 (by decide)⟩

theorem handle_msg_isCallback (m : Msg) (es : List Eff) (h : handle_msg m = .ok es) :
    ∀ e ∈ es, e.isCallback = true := by
  intro e he
  by_cases h1 : m.tag = "ret"
  · simp [handle_msg, handle_value, h1] at h
    subst h
    simp at he
    subst he; rfl
  by_cases h2 : m.tag = "ex"
  · simp [handle_msg, handle_value, handle_exception, h1, h2] at h
    subst h
    simp at he
    subst he; rfl
  by_cases h3 : m.tag = "done"
  · simp [handle_msg, handle_value, handle_exception, handle_done, h1, h2, h3] at h
    subst h
    simp at he
    subst he; rfl
  by_cases h4 : m.tag = "watch"
  · simp [handle_msg, handle_value, handle_exception, handle_done, handle_watch,
      h1, h2, h3, h4] at h
    subst h
    simp at he
    subst he; rfl
  by_cases h5 : m.tag = "lookup"
  · cases hv : m.val with
    | none =>
      simp [handle_msg, handle_value, handle_exception, handle_done, handle_watch,
        handle_lookup, h1, h2, h3, h4, h5, hv] at h
    | some v =>
      simp [handle_msg, handle_value, handle_exception, handle_done, handle_watch,
        handle_lookup, h1, h2, h3, h4, h5, hv] at h
      subst h
      simp at he
      subst he; rfl
  by_cases h6 : m.tag = "err"
  · cases hv : m.val with
    | none =>
      simp [handle_msg, handle_value, handle_exception, handle_done, handle_watch,
        handle_lookup, handle_err, h1, h2, h3, h4, h5, h6, hv] at h
    | some v =>
      by_cases hw : v.startsWith ("Reflection warning")
      · simp [handle_msg, handle_value, handle_exception, handle_done, handle_watch,
          handle_lookup, handle_err, h1, h2, h3, h4, h5, h6, hv, hw] at h
        subst h
        simp at he
        subst he; rfl
      · simp [handle_msg, handle_value, handle_exception, handle_done, handle_watch,
          handle_lookup, handle_err, h1, h2, h3, h4, h5, h6, hv, hw] at h
        subst h
        simp at he
  · simp [handle_msg, handle_value, handle_exception, handle_done, handle_watch,
      handle_lookup, handle_err, h1, h2, h3, h4, h5, h6] at h
    subst h
    simp at he

theorem handle_msg_no_disconnectCall (m : Msg) (es : List Eff) (h : handle_msg m = .ok es) :
    Eff.disconnectCall ∉ es := by
  intro hmem
  have := handle_msg_isCallback m es h _ hmem
  simp [Eff.isCallback] at this

theorem runLines_inv (self : SelfConn) : ∀ (items : List RLine) (started : Bool)
    (w : World) (tr : List Eff),
    ((runLines self items started w tr).1.disconnecting = w.disconnecting ∧
     (runLines self items started w tr).1.conn = w.conn ∧
     (runLines self items started w tr).1.evals = w.evals ∧
     (runLines self items started w tr).1.watches = w.watches ∧
     (runLines self items started w tr).1.socket = w.socket) ∧
    ((runLines self items started w tr).1.statusBar = w.statusBar ∨
     (runLines self items started w tr).1.statusBar = some (statusStr 4 self.addr)) ∧
    (∃ d, (runLines self items started w tr).2.1 = tr ++ d ∧ Eff.disconnectCall ∉ d) := by
  intro items
  induction items with
  | nil =>
    intro started w tr
    exact ⟨⟨rfl, rfl, rfl, rfl, rfl⟩, Or.inl rfl, ⟨[], by rw [List.append_nil]; rfl, by simp⟩⟩
  | cons item rest ih =>
    intro started w tr
    cases item with
    | recvOSError =>
      exact ⟨⟨rfl, rfl, rfl, rfl, rfl⟩, Or.inl rfl, ⟨[], by rw [List.append_nil]; rfl, by simp⟩⟩
    | line hasTag parsed =>
      cases started with
      | true =>
        cases parsed with
        | none =>
          exact ⟨⟨rfl, rfl, rfl, rfl, rfl⟩, Or.inl rfl, ⟨[], by rw [List.append_nil]; rfl, by simp⟩⟩
        | some m =>
          cases hm : handle_msg m with
          | error u =>
            have hred : runLines self (RLine.line hasTag (some m) :: rest) true w tr
                = (w, tr, .otherExc) := by
              simp [runLines, hm]
            rw [hred]
            exact ⟨⟨rfl, rfl, rfl, rfl, rfl⟩, Or.inl rfl,
              ⟨[], by rw [List.append_nil], by simp⟩⟩
          | ok es =>
            have hred : runLines self (RLine.line hasTag (some m) :: rest) true w tr
                = runLines self rest true w (tr ++ es) := by
              simp [runLines, hm]
            rw [hred]
            obtain ⟨hf, hs, d, htr, hd⟩ := ih true w (tr ++ es)
            refine ⟨hf, hs, ⟨es ++ d, ?_, ?_⟩⟩
            · rw [htr, List.append_assoc]
            · intro hmem
              rcases List.mem_append.mp hmem with hin | hin
              · exact handle_msg_no_disconnectCall m es hm hin
              · exact hd hin
      | false =>
        cases hasTag with
        | true =>
          have hred : runLines self (RLine.line true parsed :: rest) false w tr
              = runLines self rest true { w with statusBar := some (statusStr 4 self.addr) }
                  (tr ++ [.setStatus (statusStr 4 self.addr)]) := rfl
          rw [hred]
          obtain ⟨hf, hs, d, htr, hd⟩ :=
            ih true { w with statusBar := some (statusStr 4 self.addr) }
              (tr ++ [.setStatus (statusStr 4 self.addr)])
          refine ⟨hf, ?_, ⟨Eff.setStatus (statusStr 4 self.addr) :: d, ?_, ?_⟩⟩
          · rcases hs with hs | hs
            · exact Or.inr hs
            · exact Or.inr hs
          · rw [htr, List.append_assoc]
            rfl
          · intro hmem
            rcases List.mem_cons.mp hmem with hin | hin
            · cases hin
            · exact hd hin
        | false =>
          have hred : runLines self (RLine.line false parsed :: rest) false w tr
              = runLines self rest false w tr := rfl
          rw [hred]
          exact ih false w tr

theorem bootTrace_no_disconnectCall (shared : Option String) :
    Eff.disconnectCall ∉ bootTrace shared := by
  intro h
  cases shared <;> simp [bootTrace] at h

/-- C9: the `try` in `read_loop` catches only `OSError`. When handling a
post-handshake line raises any other exception (a parse failure), the
exception escapes, `disconnect()` is never called (no `disconnectCall` in
the trace), and the world keeps its `disconnecting` flag, active-connection
reference, pending Evals and watches, with the status indicator still set;
whereas whenever the loop body ends without such an exception (normal end
of stream or an `OSError`), `disconnect()` is called. -/
theorem C9_exception_guard (self : SelfConn) (shared : Option String) (items : List RLine)
    (w : World) :
    ((read_loop self shared items w).2.2 = true →
      (read_loop self shared items w).1.disconnecting = w.disconnecting ∧
      (read_loop self shared items w).1.conn = w.conn ∧
      (read_loop self shared items w).1.evals = w.evals ∧
      (read_loop self shared items w).1.watches = w.watches ∧
      (read_loop self shared items w).1.statusBar.isSome = true ∧
      Eff.disconnectCall ∉ (read_loop self shared items w).2.1) ∧
    ((read_loop self shared items w).2.2 = false →
      Eff.disconnectCall ∈ (read_loop self shared items w).2.1) := by
  obtain ⟨⟨hd, hc, he, hw, hsk⟩, hs, d, htr, hdc⟩ :=
    runLines_inv self items false (upgradeWorld w) (bootTrace shared)
  simp only [read_loop]
  rcases ho : (runLines self items false (upgradeWorld w) (bootTrace shared)).2.2
      with _ | _ | _ <;> dsimp only
  · constructor
    · intro h
      exact Bool.noConfusion h
    · intro _
      simp
  · constructor
    · intro h
      exact Bool.noConfusion h
    · intro _
      simp
  · constructor
    · intro _
      refine ⟨?_, ?_, ?_, ?_, ?_, ?_⟩
      · rw [hd]; rfl
      · rw [hc]; rfl
      · rw [he]; rfl
      · rw [hw]; rfl
      · rcases hs with hs | hs <;> rw [hs] <;> rfl
      · rw [htr]
        intro hmem
        rcases List.mem_append.mp hmem with hin | hin
        · exact bootTrace_no_disconnectCall shared hin
        · exact hdc hin
    · intro h
      exact Bool.noConfusion h

/-- C9 witness: a concrete run where the second line fails to parse after
the handshake sentinel leaves the world untouched and never disconnects. -/
theorem C9_exception_guard_witness :
    ((read_loop { window := 1, addr := "localhost:5555" } none
        [RLine.line true none, RLine.line false none]
        { disconnecting := false, socket := some 1, conn := some 5, statusBar := none,
          evals := [{ id := "3.0", window := 2 }], watches := [] }).2.2 = true) ∧
    ((read_loop { window := 1, addr := "localhost:5555" } none
        [RLine.line true none, RLine.line false none]
        { disconnecting := false, socket := some 1, conn := some 5, statusBar := none,
          evals := [{ id := "3.0", window := 2 }], watches := [] }).1.disconnecting = false ∧
      (read_loop { window := 1, addr := "localhost:5555" } none
        [RLine.line true none, RLine.line false none]
        { disconnecting := false, socket := some 1, conn := some 5, statusBar := none,
          evals := [{ id := "3.0", window := 2 }], watches := [] }).1.conn = some 5 ∧
      (read_loop { window := 1, addr := "localhost:5555" } none
        [RLine.line true none, RLine.line false none]
        { disconnecting := false, socket := some 1, conn := some 5, statusBar := none,
          evals := [{ id := "3.0", window := 2 }], watches := [] }).1.evals
          = [{ id := "3.0", window := 2 }] ∧
      (read_loop { window := 1, addr := "localhost:5555" } none
        [RLine.line true none, RLine.line false none]
        { disconnecting := false, socket := some 1, conn := some 5, statusBar := none,
          evals := [{ id := "3.0", window := 2 }], watches := [] }).1.watches = [] ∧
      (read_loop { window := 1, addr := "localhost:5555" } none
        [RLine.line true none, RLine.line false none]
        { disconnecting := false, socket := some 1, conn := some 5, statusBar := none,
          evals := [{ id := "3.0", window := 2 }], watches := [] }).1.statusBar.isSome = true ∧
      Eff.disconnectCall ∉ (read_loop { window := 1, addr := "localhost:5555" } none
        [RLine.line true none, RLine.line false none]
        { disconnecting := false, socket := some 1, conn := some 5, statusBar := none,
          evals := [{ id := "3.0", window := 2 }], watches := [] }).2.1) :=
  ⟨by decide,
   (C9_exception_guard { window := 1, addr := "localhost:5555" } none
      [RLine.line true none, RLine.line false none]
      { disconnecting := false, socket := some 1, conn := some 5, statusBar := none,
        evals := [{ id := "3.0", window := 2 }], watches := [] }).1 (by decide)⟩

end CS
